import Mathlib

/-!
Verification of the irctest protocol-conformance harness fragments.

The development embeds, in Lean, the parts of the repository that the
claims concern:

* the PING / PONG server test cases (irctest/server_tests/pingpong.py and
  irctest/server_tests/server_prefix.py);
* the test-selection hook (conftest.py, pytest_collection_modifyitems);
* the slircd process controller (irctest/controllers/slircd.py, run).

The pattern-matching engine (irctest.patma, assertMessageMatch) is not part
of the provided sources, so it is modelled from the specification of the
Pattern and Matcher component, as are the message data model and the small
pieces of controller infrastructure (gen_ssl, the per-test directory) whose
code is likewise outside the provided sources.  Everything else is a direct
translation of the Python source.
-/

set_option maxRecDepth 40000

namespace Irctest

/-! ## Message data model -/

/-- Modelled from the spec: the structured protocol message (the
irctest message type is not among the provided sources).  A message has a
tag mapping, an optional sender (the wire form calls it the message
prefix; that identifier is reserved in Lean, so the field is named
source), a command, and an ordered parameter list. -/
structure Message where
  tags : List (String × String)
  source : Option String
  command : String
  params : List String
deriving DecidableEq

/-! ## A small regular-expression engine

The matcher specification calls for full-string regular-expression tests.
The engine below is a standard Brzozowski-derivative matcher over the
character classes the harness tests actually use: single characters and
negated character sets. -/

/-- Regular expressions over characters: empty language, empty string,
a single character, any character outside a given set, concatenation,
alternation, and Kleene star. -/
inductive Regex where
  | fail : Regex
  | eps : Regex
  | chr : Char → Regex
  | nonOf : List Char → Regex
  | cat : Regex → Regex → Regex
  | alt : Regex → Regex → Regex
  | star : Regex → Regex
deriving DecidableEq

/-- One or more repetitions of a regular expression. -/
def Regex.plus (r : Regex) : Regex := .cat r (.star r)

/-- Whether the regular expression accepts the empty string. -/
def Regex.nullable : Regex → Bool
  | .fail => false
  | .eps => true
  | .chr _ => false
  | .nonOf _ => false
  | .cat r s => r.nullable && s.nullable
  | .alt r s => r.nullable || s.nullable
  | .star _ => true

/-- Brzozowski derivative of a regular expression by a character. -/
def Regex.deriv (r : Regex) (c : Char) : Regex :=
  match r with
  | .fail => .fail
  | .eps => .fail
  | .chr a => if a = c then .eps else .fail
  | .nonOf bad => if bad.contains c then .fail else .eps
  | .cat r s =>
      if r.nullable then .alt (.cat (r.deriv c) s) (s.deriv c)
      else .cat (r.deriv c) s
  | .alt r s => .alt (r.deriv c) (s.deriv c)
  | .star r => .cat (r.deriv c) (.star r)

/-- Full-string match of a regular expression against a character list. -/
def rmatchList (r : Regex) : List Char → Bool
  | [] => r.nullable
  | c :: cs => rmatchList (r.deriv c) cs

/-- Full-string match of a regular expression against a string, as the
matcher specification requires for its regex nodes. -/
def rmatch (r : Regex) (s : String) : Bool := rmatchList r s.data

/-! ## Case handling

The matcher compares commands case-insensitively.  The embedding uses an
explicit ASCII lowercasing so that all definitions evaluate inside the
kernel. -/

/-- ASCII lowercasing of one character. -/
def asciiLowerChar (c : Char) : Char :=
  if 'A' ≤ c ∧ c ≤ 'Z' then Char.ofNat (c.toNat + 32) else c

/-- ASCII lowercasing of a string. -/
def strLower (s : String) : String := ⟨s.data.map asciiLowerChar⟩

/-! ## Pattern and Matcher

Modelled from the spec: the expression language of expected values
(literal, wildcard, regex, set membership, optional, negation) and the
matcher that compares a structured message against a pattern.  The
original module (irctest.patma together with assertMessageMatch) is not
among the provided sources. -/

/-- Modelled from the spec: one expected-value node of the pattern
language.  The optional node is named maybe and the negation node is
named negate. -/
inductive StrPat where
  | literal : String → StrPat
  | anyStr : StrPat
  | regex : Regex → StrPat
  | oneOf : List String → StrPat
  | maybe : StrPat → StrPat
  | negate : StrPat → StrPat
deriving DecidableEq

/-- The wildcard node, named as in the test sources. -/
def ANYSTR : StrPat := .anyStr

/-- The regex node constructor, named as in the test sources. -/
def StrRe (r : Regex) : StrPat := .regex r

/-- Modelled from the spec: whether a single expected-value node accepts
an optional field value.  The flag ci requests case-insensitive literal
comparison (used for commands); everything else is case-sensitive.  A
wildcard matches any non-absent value, an optional node also accepts an
absent field, and a negation accepts exactly what its inner node
rejects. -/
def matchStrPat (ci : Bool) : StrPat → Option String → Bool
  | .literal w, some s => if ci then strLower w == strLower s else w == s
  | .literal _, none => false
  | .anyStr, some _ => true
  | .anyStr, none => false
  | .regex r, some s => rmatch r s
  | .regex _, none => false
  | .oneOf ws, some s => ws.contains s
  | .oneOf _, none => false
  | .maybe _, none => true
  | .maybe p, some s => matchStrPat ci p (some s)
  | .negate p, v => !matchStrPat ci p v

/-- Modelled from the spec: positional comparison of a parameter pattern
list against the message parameters.  Pattern entries beyond the end of
the message see an absent value; message parameters beyond the end of
the pattern are ignored. -/
def matchParams : List StrPat → List String → Bool
  | [], _ => true
  | p :: ps, [] => matchStrPat false p none && matchParams ps []
  | p :: ps, m :: ms => matchStrPat false p (some m) && matchParams ps ms

/-- Modelled from the spec: every constrained tag key must be present on
the message with a matching value; other tag keys are ignored. -/
def matchTags (tps : List (String × StrPat)) (ts : List (String × String)) : Bool :=
  tps.all fun kp =>
    match (ts.find? fun kv => kv.fst == kp.fst).map Prod.snd with
    | some v => matchStrPat false kp.snd (some v)
    | none => false

/-- Modelled from the spec: a pattern mirrors the message shape, each
field optionally constrained.  An absent pattern field constrains
nothing. -/
structure MsgPattern where
  tags : Option (List (String × StrPat))
  source : Option StrPat
  command : Option StrPat
  params : Option (List StrPat)
deriving DecidableEq

/-- Modelled from the spec: the matcher verdict for a pattern against a
message.  This Boolean is the ok field of the MatchResult; the
assertion helper of the test sources passes exactly when it is true.
Command comparison is case-insensitive, everything else
case-sensitive. -/
def matchMsg (p : MsgPattern) (m : Message) : Bool :=
  (match p.tags with
   | none => true
   | some tps => matchTags tps m.tags) &&
  (match p.source with
   | none => true
   | some sp => matchStrPat false sp m.source) &&
  (match p.command with
   | none => true
   | some cp => matchStrPat true cp (some m.command)) &&
  (match p.params with
   | none => true
   | some ps => matchParams ps m.params)

/-! ## The PING test cases

Direct translation of irctest/server_tests/pingpong.py and of the PONG
test of irctest/server_tests/server_prefix.py. -/

/-- The server-name regex of testPing: one or more characters other than
an exclamation mark, a dot, then one or more characters other than an
exclamation mark. -/
def serverNameRegex : Regex :=
  .cat (Regex.plus (.nonOf ['!'])) (.cat (.chr '.') (Regex.plus (.nonOf ['!'])))

/-- The pattern asserted by testPing after sending PING abcdef: command
PONG, params a wildcard followed by the literal abcdef, and a sender
matching the server-name regex. -/
def testPingPattern : MsgPattern :=
  ⟨none, some (StrRe serverNameRegex), some (.literal "PONG"), some [ANYSTR, .literal "abcdef"]⟩

/-- Acceptance of the next received message by testPing: the pattern
assertion, followed by the separate equality assertion that the first
parameter equals the sender. -/
def testPing (m : Message) : Bool :=
  matchMsg testPingPattern m && (some (m.params.getD 0 "") == m.source)

/-- The numeric for ERR_NOORIGIN, from irctest.numerics. -/
def ERR_NOORIGIN : String := "409"

/-- The numeric for ERR_NEEDMOREPARAMS, from irctest.numerics. -/
def ERR_NEEDMOREPARAMS : String := "461"

/-- The pattern asserted by testPingNoToken when the received command is
ERR_NOORIGIN. -/
def noOriginPattern : MsgPattern :=
  ⟨none, none, some (.literal ERR_NOORIGIN), some [.literal "foo", ANYSTR]⟩

/-- The pattern asserted by testPingNoToken otherwise. -/
def needMoreParamsPattern : MsgPattern :=
  ⟨none, none, some (.literal ERR_NEEDMOREPARAMS), some [.literal "foo", .literal "PING", ANYSTR]⟩

/-- Acceptance of the next received message by testPingNoToken after
connecting with nick foo and sending a bare PING: the test branches on
whether the command equals ERR_NOORIGIN and asserts the corresponding
pattern. -/
def testPingNoToken (m : Message) : Bool :=
  if m.command == ERR_NOORIGIN then matchMsg noOriginPattern m
  else matchMsg needMoreParamsPattern m


/-! ## Reduction helpers for the matcher -/

/-- Case-insensitive literal node against a present value. -/
theorem mSPlitT (w s : String) :
    matchStrPat true (.literal w) (some s) = (strLower w == strLower s) := rfl

/-- Case-sensitive literal node against a present value. -/
theorem mSPlitF (w s : String) : matchStrPat false (.literal w) (some s) = (w == s) := rfl

/-- Literal node against an absent value. -/
theorem mSPlitN (ci : Bool) (w : String) : matchStrPat ci (.literal w) none = false := rfl

/-- Wildcard node against a present value. -/
theorem mSPanyS (ci : Bool) (s : String) : matchStrPat ci .anyStr (some s) = true := rfl

/-- Wildcard node against an absent value. -/
theorem mSPanyN (ci : Bool) : matchStrPat ci .anyStr none = false := rfl

/-! ## Evaluation checks for the regex engine -/

example : rmatch serverNameRegex "a.b" = true := by decide

example : rmatch serverNameRegex "My.Little.Server" = true := by decide

example : rmatch serverNameRegex "nick!user.host" = false := by decide

example : rmatch serverNameRegex ".ab" = false := by decide

example : rmatch serverNameRegex "ab." = false := by decide

/-! ## Claim C1 -/

/-- A message exhibiting that the testPing assertion does not pin the
parameter list length nor the letter case of the command. -/
def pingExtraParamMsg : Message := ⟨[], some "a.b", "pong", ["a.b", "abcdef", "zzz"]⟩

/-- C1, counterexample: the assertion of testPing accepts a message whose
command is pong rather than PONG and which carries a third trailing
parameter, so acceptance is not equivalent to the conjunction stated in
the claim (command PONG with exactly two parameters). -/
theorem testPing_not_exact_params :
    testPing pingExtraParamMsg = true ∧
      ¬(pingExtraParamMsg.command = "PONG" ∧
        ∃ s, pingExtraParamMsg.params = [s, "abcdef"] ∧ pingExtraParamMsg.source = some s ∧
          rmatch serverNameRegex s = true) := by
  constructor
  · decide
  · rintro ⟨hcmd, -⟩
    exact absurd hcmd (by decide)

/-- C1, amended: the next message passes the assertions of testPing if
and only if its command equals PONG up to ASCII case, its first two
parameters are a wildcard value followed by abcdef (further trailing
parameters are unconstrained), its sender matches the server-name
regex, and its first parameter equals its sender. -/
theorem testPing_accepts_iff (m : Message) :
    testPing m = true ↔
      strLower m.command = "pong" ∧
      ∃ s rest, m.params = s :: "abcdef" :: rest ∧ m.source = some s ∧
        rmatch serverNameRegex s = true := by
  obtain ⟨tg, src, cmd, ps⟩ := m
  simp only [testPing, matchMsg, testPingPattern, ANYSTR, StrRe, matchStrPat,
    Bool.and_eq_true, beq_iff_eq]
  cases src with
  | none =>
      simp [matchStrPat]
  | some p =>
      cases ps with
      | nil => simp [matchParams, matchStrPat]
      | cons a t =>
          cases t with
          | nil =>
              simp [matchParams, matchStrPat]
          | cons b u =>
              simp only [matchParams, matchStrPat, Bool.and_eq_true, beq_iff_eq,
                List.getD_cons_zero, Option.some.injEq, if_true]
              have hPONG : strLower "PONG" = "pong" := by decide
              constructor
              · rintro ⟨⟨⟨⟨-, hre⟩, hcmd⟩, -, hb, -⟩, rfl⟩
                have hb' : "abcdef" = b := by simpa using hb
                exact ⟨by rw [← hcmd, hPONG], a, u, by rw [← hb'], rfl, hre⟩
              · rintro ⟨hcmd, s, rest, heq, hps, hre⟩
                obtain ⟨rfl, rfl, rfl⟩ : a = s ∧ b = "abcdef" ∧ u = rest := by
                  simpa using heq
                subst hps
                exact ⟨⟨⟨⟨trivial, hre⟩, by rw [hcmd, hPONG]⟩, trivial, by simp, trivial⟩, rfl⟩



/-! ## Claim C2 -/

/-- A message exhibiting that testPingNoToken does not pin the parameter
list length. -/
def noOriginExtraParamMsg : Message := ⟨[], none, "409", ["foo", "x", "extra"]⟩

/-- C2, counterexample: testPingNoToken accepts an ERR_NOORIGIN message
carrying a third trailing parameter, so acceptance is not equivalent to
the two exact parameter shapes stated in the claim. -/
theorem testPingNoToken_not_exact_params :
    testPingNoToken noOriginExtraParamMsg = true ∧
      ¬((noOriginExtraParamMsg.command = ERR_NOORIGIN ∧
          ∃ s, noOriginExtraParamMsg.params = ["foo", s]) ∨
        (noOriginExtraParamMsg.command = ERR_NEEDMOREPARAMS ∧
          ∃ s, noOriginExtraParamMsg.params = ["foo", "PING", s])) := by
  refine ⟨by decide, ?_⟩
  rintro (⟨-, s, h⟩ | ⟨hcmd, -⟩)
  · simp [noOriginExtraParamMsg] at h
  · exact absurd hcmd (by decide)

/-- C2, amended: the next message passes testPingNoToken if and only if
either its command equals ERR_NOORIGIN and its first two parameters are
foo followed by any value, or its command differs from ERR_NOORIGIN,
equals ERR_NEEDMOREPARAMS up to ASCII case, and its first three
parameters are foo, PING, and any value; in both branches further
trailing parameters are unconstrained. -/
theorem testPingNoToken_accepts_iff (m : Message) :
    testPingNoToken m = true ↔
      (m.command = ERR_NOORIGIN ∧ ∃ s rest, m.params = "foo" :: s :: rest) ∨
      (m.command ≠ ERR_NOORIGIN ∧ strLower m.command = ERR_NEEDMOREPARAMS ∧
        ∃ s rest, m.params = "foo" :: "PING" :: s :: rest) := by
  obtain ⟨tg, src, cmd, ps⟩ := m
  by_cases hc : cmd = ERR_NOORIGIN
  · subst hc
    simp only [testPingNoToken, matchMsg, noOriginPattern, ANYSTR, beq_self_eq_true, if_true,
      mSPlitT, mSPlitF, mSPlitN, mSPanyS, mSPanyN, matchParams,
      Bool.and_eq_true, beq_iff_eq, ne_eq, not_true_eq_false, false_and, or_false, true_and]
    cases ps with
    | nil => simp [matchParams, mSPlitN]
    | cons a t =>
        cases t with
        | nil => simp [matchParams, mSPlitF, mSPanyN]
        | cons b u =>
            simp only [matchParams, mSPlitF, mSPanyS, mSPanyN, mSPlitN, Bool.and_eq_true,
              beq_iff_eq, and_true, true_and]
            constructor
            · intro h
              exact ⟨b, u, by rw [← h]⟩
            · rintro ⟨s, rest, h⟩
              exact ((List.cons.injEq _ _ _ _).mp h).1.symm
  · rw [testPingNoToken, if_neg (by simpa using hc)]
    simp only [matchMsg, needMoreParamsPattern, ANYSTR,
      mSPlitT, mSPlitF, mSPlitN, mSPanyS, mSPanyN, matchParams,
      Bool.and_eq_true, beq_iff_eq, hc, ne_eq, not_false_iff, false_and, false_or, true_and]
    have h461 : strLower ERR_NEEDMOREPARAMS = ERR_NEEDMOREPARAMS := by decide
    cases ps with
    | nil => simp [matchParams, mSPlitN]
    | cons a t =>
        cases t with
        | nil => simp [matchParams, mSPlitF, mSPanyN, mSPlitN]
        | cons b u =>
            cases u with
            | nil => simp [matchParams, mSPlitF, mSPanyN, mSPlitN]
            | cons d v =>
                simp only [matchParams, mSPlitF, mSPanyS, mSPanyN, mSPlitN, Bool.and_eq_true,
                  beq_iff_eq, and_true, true_and]
                rw [h461]
                constructor
                · rintro ⟨hcmd, ha, hb⟩
                  exact ⟨hcmd.symm, d, v, by rw [← ha, ← hb]⟩
                · rintro ⟨hcmd, s, rest, h⟩
                  obtain ⟨rfl, rfl, rfl, rfl⟩ :
                      a = "foo" ∧ b = "PING" ∧ d = s ∧ v = rest := by simpa using h
                  exact ⟨hcmd.symm, rfl, rfl⟩


/-! ## Claim C7 -/

/-- C7: the equality between the first PONG parameter and the message
sender is enforced only by the separate per-test assertion, not by the
generic matcher: some message satisfies the full testPing pattern yet
fails the test because its first parameter differs from its sender. -/
theorem matcher_not_checking_first_param_eq_source :
    ∃ m : Message, matchMsg testPingPattern m = true ∧ testPing m = false :=
  ⟨⟨[], some "a.b", "PONG", ["c.d", "abcdef"]⟩, by decide, by decide⟩


/-! ## Test selection (conftest.py)

Direct translation of pytest_collection_modifyitems.  Items, markers,
controller classification and the test base classes live in pytest and in
irctest.cases outside the provided sources; they are modelled from the
spec as plain data carried by each collected item. -/


/-- Modelled from the spec: the relevant base class of a collected test
item: derived from BaseServerTestCase, from BaseClientTestCase, or from
neither (the project treats these as mutually exclusive). -/
inductive ClsKind where
  | serverCase : ClsKind
  | clientCase : ClsKind
  | otherCase : ClsKind
deriving DecidableEq

/-- Modelled from the spec: a collected pytest item, as the selection
hook sees it: its marker names (in iteration order) and the kind of its
test class. -/
structure Item where
  markers : List String
  cls : ClsKind
deriving DecidableEq

/-- Modelled from the spec: the configured controller, as classified by
pytest_configure: a server controller, a client controller, or none. -/
inductive ControllerKind where
  | serverController : ControllerKind
  | clientController : ControllerKind
  | noController : ControllerKind
deriving DecidableEq

/-- Whether server tests are selected, from the controller
classification at the top of pytest_collection_modifyitems. -/
def serverTests : ControllerKind → Bool
  | .serverController => true
  | _ => false

/-- Whether client tests are selected, from the controller
classification at the top of pytest_collection_modifyitems. -/
def clientTests : ControllerKind → Bool
  | .clientController => true
  | _ => false

/-- The set of standard specification markers of conftest.py. -/
def standard_markers : List String := ["RFC1459", "RFC2812", "IRCv3", "modern", "ircdocs"]

/-- The item loop of pytest_collection_modifyitems: skip deprecated
items and Ergo-only items when sd (the skip-deprecated option) is set,
then keep an item according to its class kind and the selected test
family. -/
def filterLoop (sd st ct : Bool) : List Item → List Item
  | [] => []
  | item :: rest =>
      if sd && item.markers.contains "deprecated" then
        filterLoop sd st ct rest
      else if sd && item.markers.contains "Ergo"
          && !(item.markers.any fun m => standard_markers.contains m) then
        filterLoop sd st ct rest
      else
        match item.cls with
        | .serverCase =>
            if st then item :: filterLoop sd st ct rest else filterLoop sd st ct rest
        | .clientCase =>
            if ct then item :: filterLoop sd st ct rest else filterLoop sd st ct rest
        | .otherCase => item :: filterLoop sd st ct rest

/-- The full collection hook: classify the controller, then filter the
collected items in order. -/
def pytest_collection_modifyitems (sd : Bool) (ck : ControllerKind)
    (items : List Item) : List Item :=
  filterLoop sd (serverTests ck) (clientTests ck) items

/-- The marker-based exclusion predicate implicit in the two continue
branches of the loop. -/
def markerExcluded (sd : Bool) (ms : List String) : Bool :=
  (sd && ms.contains "deprecated") ||
  (sd && ms.contains "Ergo" && !(ms.any fun m => standard_markers.contains m))

/-- The class-based retention predicate of the tail of the loop. -/
def classKeep (st ct : Bool) : ClsKind → Bool
  | .serverCase => st
  | .clientCase => ct
  | .otherCase => true

/-- The loop is the filter by the conjunction of the two predicates. -/
theorem filterLoop_eq_filter (sd st ct : Bool) (items : List Item) :
    filterLoop sd st ct items =
      items.filter fun item =>
        !markerExcluded sd item.markers && classKeep st ct item.cls := by
  induction items with
  | nil => rfl
  | cons x rest ih =>
      by_cases h1 : (sd && x.markers.contains "deprecated") = true
      · rw [filterLoop, if_pos h1, List.filter_cons,
          if_neg (by simp only [markerExcluded, h1, Bool.true_or, Bool.not_true,
            Bool.false_and]; exact Bool.false_ne_true), ih]
      · by_cases h2 : (sd && x.markers.contains "Ergo"
            && !(x.markers.any fun m => standard_markers.contains m)) = true
        · rw [filterLoop, if_neg h1, if_pos h2, List.filter_cons,
            if_neg (by simp only [markerExcluded, h2, Bool.or_true, Bool.not_true,
              Bool.false_and]; exact Bool.false_ne_true), ih]
        · have hm : markerExcluded sd x.markers = false := by
            simp only [markerExcluded, Bool.or_eq_false_iff]
            exact ⟨by simpa using h1, by simpa using h2⟩
          rw [filterLoop, if_neg h1, if_neg h2, List.filter_cons, ih]
          cases hc : x.cls <;> cases st <;> cases ct <;> simp [hm, classKeep, hc]

/-- Membership in the filtered list. -/
theorem mem_filterLoop (sd st ct : Bool) (items : List Item) (item : Item) :
    item ∈ filterLoop sd st ct items ↔
      item ∈ items ∧ markerExcluded sd item.markers = false ∧
        classKeep st ct item.cls = true := by
  rw [filterLoop_eq_filter]
  simp [List.mem_filter, and_assoc]

/-- An item carrying deprecated, Ergo and a standard marker. -/
def ergoDeprecatedItem : Item := ⟨["deprecated", "Ergo", "RFC2812"], .otherCase⟩

/-- Claim C8, counterexample: an item carrying the Ergo marker together
with the deprecated marker and the standard marker RFC2812 is excluded
under skip-deprecated even though one of its markers is standard, so
exclusion of Ergo-marked tests is not equivalent to having no standard
marker. -/
theorem ergo_exclusion_not_iff_no_standard_marker :
    "Ergo" ∈ ergoDeprecatedItem.markers ∧
      ¬((ergoDeprecatedItem ∉
            pytest_collection_modifyitems true .serverController [ergoDeprecatedItem]) ↔
          ∀ m ∈ ergoDeprecatedItem.markers, m ∉ standard_markers) := by
  decide

/-- The marker predicate spelt out in membership terms. -/
theorem markerExcluded_eq_false_iff (sd : Bool) (ms : List String) :
    markerExcluded sd ms = false ↔
      ¬(sd = true ∧ ("deprecated" ∈ ms ∨ ("Ergo" ∈ ms ∧ ∀ m ∈ ms, m ∉ standard_markers))) := by
  cases sd with
  | false => simp [markerExcluded]
  | true =>
      simp [markerExcluded, not_or]

/-- Claim C8, amended: after the collection hook, an item is retained
if and only if it was collected, it is not marker-excluded (under
skip-deprecated: it neither carries the deprecated marker nor carries
the Ergo marker with none of its markers standard; with the option
unset nothing is marker-excluded), and its class-based retention check
passes. -/
theorem marker_filtering_characterization (sd : Bool) (ck : ControllerKind)
    (items : List Item) (item : Item) :
    item ∈ pytest_collection_modifyitems sd ck items ↔
      item ∈ items ∧
      ¬(sd = true ∧ ("deprecated" ∈ item.markers ∨
          ("Ergo" ∈ item.markers ∧ ∀ m ∈ item.markers, m ∉ standard_markers))) ∧
      classKeep (serverTests ck) (clientTests ck) item.cls = true := by
  rw [pytest_collection_modifyitems, mem_filterLoop, markerExcluded_eq_false_iff]

/-- A deprecated server-class item. -/
def deprecatedServerItem : Item := ⟨["deprecated"], .serverCase⟩

/-- Claim C9, counterexample: with skip-deprecated set and a server
controller configured, a deprecated server-class test is dropped, so a
server-class test being retained is not equivalent to the controller
being a server controller. -/
theorem server_item_retention_not_iff_server_controller :
    ¬((deprecatedServerItem ∈
          pytest_collection_modifyitems true .serverController [deprecatedServerItem]) ↔
        ControllerKind.serverController = ControllerKind.serverController) := by
  decide

/-- Claim C9, amended: among items that the marker predicate does not
exclude, retention is determined by the class kind: a server-class test
is retained exactly when the controller is a server controller, a
client-class test exactly when it is a client controller, and a test of
neither kind is always retained; with no controller configured, both
server and client tests are dropped. -/
theorem class_retention_characterization (sd : Bool) (ck : ControllerKind)
    (items : List Item) (item : Item)
    (hm : markerExcluded sd item.markers = false) :
    item ∈ pytest_collection_modifyitems sd ck items ↔
      item ∈ items ∧
        (match item.cls with
         | .serverCase => ck = .serverController
         | .clientCase => ck = .clientController
         | .otherCase => True) := by
  rw [pytest_collection_modifyitems, mem_filterLoop]
  refine and_congr_right fun _ => ?_
  simp only [hm, true_and]
  cases hc : item.cls <;> cases ck <;> simp [classKeep, serverTests, clientTests, hc]

/-- Witness for the amended C9 at a concrete item and controller. -/
theorem class_retention_characterization_witness :
    markerExcluded false deprecatedServerItem.markers = false ∧
      (deprecatedServerItem ∈
          pytest_collection_modifyitems false .serverController [deprecatedServerItem] ↔
        deprecatedServerItem ∈ [deprecatedServerItem] ∧
          (match deprecatedServerItem.cls with
           | .serverCase => ControllerKind.serverController = .serverController
           | .clientCase => ControllerKind.serverController = .clientController
           | .otherCase => True)) :=
  ⟨by decide,
    class_retention_characterization false .serverController [deprecatedServerItem]
      deprecatedServerItem (by decide)⟩


/-! ## The slircd process controller (irctest/controllers/slircd.py)

Direct translation of SlircdController.run: the generated configuration
text, the binary resolution, the optional faketime wrapper and the
spawned command line. -/


/-! decimal rendering -/

/-- Fuel-driven decimal digit emission; the fuel always suffices when it
exceeds the number being rendered. -/
def natToDecimalAux : Nat → Nat → String
  | 0, _ => ""
  | f + 1, n =>
      if n < 10 then ⟨[Nat.digitChar n]⟩
      else natToDecimalAux f (n / 10) ++ ⟨[Nat.digitChar (n % 10)]⟩

/-- Decimal rendering of a natural number, as Python renders an int in
an f-string. -/
def natToDecimal (n : Nat) : String := natToDecimalAux (n + 1) n

/-- Decimal decoding, used to show the rendering is injective. -/
def decodeDecimal (s : String) : Nat :=
  s.data.foldl (fun acc c => acc * 10 + (c.toNat - 48)) 0

/-- Code of a digit character. -/
theorem digitChar_toNat (d : Nat) (h : d < 10) : (Nat.digitChar d).toNat = 48 + d := by
  interval_cases d <;> decide

/-- Decoding inverts the fuel-driven rendering when the fuel exceeds the
number. -/
theorem decodeDecimal_natToDecimalAux (fuel n : Nat) (h : n < fuel) :
    decodeDecimal (natToDecimalAux fuel n) = n := by
  induction fuel generalizing n with
  | zero => omega
  | succ f ih =>
      rw [natToDecimalAux]
      by_cases h10 : n < 10
      · rw [if_pos h10]
        simp [decodeDecimal, digitChar_toNat n h10]
      · rw [if_neg h10]
        have hdiv : n / 10 < n := Nat.div_lt_self (by omega) (by omega)
        have hmod : n % 10 < 10 := Nat.mod_lt _ (by omega)
        have hrec := ih (n / 10) (by omega)
        simp only [decodeDecimal, String.data_append] at hrec ⊢
        rw [List.foldl_append]
        simp [List.foldl_cons, hrec, digitChar_toNat _ hmod]
        omega

/-- Decoding inverts the rendering. -/
theorem decodeDecimal_natToDecimal (n : Nat) : decodeDecimal (natToDecimal n) = n :=
  decodeDecimal_natToDecimalAux (n + 1) n (by omega)

/-- Distinct naturals render to distinct decimal strings. -/
theorem natToDecimal_injective (a b : Nat) (h : natToDecimal a = natToDecimal b) : a = b := by
  have := congrArg decodeDecimal h
  rwa [decodeDecimal_natToDecimal, decodeDecimal_natToDecimal] at this

example : natToDecimal 6667 = "6667" := by decide

example : natToDecimal 0 = "0" := by decide

/-! substring containment -/

/-- One string occurring inside another, as a contiguous substring. -/
def strContains (needle hay : String) : Prop := needle.data <:+: hay.data

instance (n h : String) : Decidable (strContains n h) :=
  inferInstanceAs (Decidable (n.data <:+: h.data))

/-- A string occurs in any concatenation that spells it out. -/
theorem strContains_of_parts (n pre post hay : String) (h : pre ++ n ++ post = hay) :
    strContains n hay := by
  subst h
  show n.data <:+: ((pre ++ n) ++ post).data
  rw [String.data_append, String.data_append]
  exact List.infix_append _ _ _

/-- Containment is preserved by prepending. -/
theorem strContains_appendLeft (n s t : String) (h : strContains n t) :
    strContains n (s ++ t) := by
  obtain ⟨u, v, huv⟩ := h
  refine ⟨s.data ++ u, v, ?_⟩
  rw [String.data_append, ← huv]
  simp

/-! the controller -/

/-- The inputs of one SlircdController.run call: its parameters, the
controller state it reads, and the environment it consults.  The
per-test directory, the TLS material paths and the test-config
registration flags live on controller infrastructure outside the
provided sources and are modelled from the spec as plain inputs; the
SLIRCD_BIN variable, the filesystem existence checks and the PATH
lookup of the faketime executable are the ambient environment, modelled
as explicit fields. -/
structure RunArgs where
  hostname : String
  port : Nat
  password : Option String
  ssl : Bool
  run_services : Bool
  faketime : Option String
  directory : String
  pemPath : String
  keyPath : String
  regBeforeConnect : Bool
  regEmailRequired : Bool
  envSlircdBin : Option String
  workspaceRoot : String
  pathExists : String → Bool
  faketimeOnPath : Bool

/-- Rendering of a Python bool in the generated TOML. -/
def pyBool (b : Bool) : String := if b then "true" else "false"

/-- Truthiness of an optional string in Python: None and the empty
string are falsy. -/
def pyTruthy : Option String → Bool
  | none => false
  | some s => !(s == "")

/-- The plaintext listen address written into the configuration. -/
def bindAddress (a : RunArgs) : String := a.hostname ++ ":" ++ natToDecimal a.port

/-- The TLS listen address: the same host, one port higher. -/
def tlsAddress (a : RunArgs) : String := a.hostname ++ ":" ++ natToDecimal (a.port + 1)

/-- The tls_config fragment of run: a [tls] section when ssl is
requested, the empty string otherwise. -/
def tls_config (a : RunArgs) : String :=
  if a.ssl then
    "[tls]\naddress = \"" ++ tlsAddress a ++ "\"\ncert_path = \"" ++ a.pemPath
      ++ "\"\nkey_path = \"" ++ a.keyPath ++ "\"\n"
  else ""

/-- The password_config fragment of run: a password entry when a
password is given, the empty string otherwise. -/
def password_config : Option String → String
  | none => ""
  | some pw => "password = \"" ++ pw ++ "\""

/-- The fixed part of BASE_CONFIG before the password slot. -/
def configHead : String :=
  "# slircd-ng irctest configuration\n\n[server]\nname = \"My.Little.Server\"\nnetwork = \"TestNet\"\nsid = \"001\"\ndescription = \"test server\"\nmetrics_port = 0\n"

/-- The rendered text from the start of the file through the [server]
section, that is everything before the [listen] header. -/
def serverSection (password : Option String) : String :=
  configHead ++ password_config password

/-- The fixed part of BASE_CONFIG after the TLS slot. -/
def configTail : String :=
  "\n\n[database]\npath = \":memory:\"\n\n[limits]\nrate = 1000.0\nburst = 1000.0\n\n[security]\ncloak_secret = \"test-secret-do-not-use-in-production\"\ncloak_suffix = \"test\"\nspam_detection_enabled = false\n\n[security.rate_limits]\nmessage_rate_per_second = 10000\nconnection_burst_per_ip = 10000\njoin_burst_per_client = 10000\n\n[motd]\nlines = [\n    \"Welcome to slircd-ng test server!\",\n]\n\n[[oper]]\nname = \"operuser\"\npassword = \"operpassword\"\nhostmask = \"*@*\"\n"

/-- The account-registration block appended after BASE_CONFIG, with the
two booleans taken from the test configuration. -/
def account_registration_section (bc er : Bool) : String :=
  "\n[account_registration]\nenabled = true\nbefore_connect = " ++ pyBool bc
    ++ "\nemail_required = " ++ pyBool er ++ "\ncustom_account_name = true\n"

/-- The full generated configuration: BASE_CONFIG with its three slots
filled, followed by the account-registration block. -/
def config_content (a : RunArgs) : String :=
  serverSection a.password ++ "\n\n[listen]\naddress = \"" ++ bindAddress a ++ "\"\n\n"
    ++ tls_config a ++ configTail
    ++ account_registration_section a.regBeforeConnect a.regEmailRequired

/-- The path the configuration is written to: config.toml inside the
per-test directory. -/
def config_path (a : RunArgs) : String := a.directory ++ "/config.toml"

/-- The fixed candidate locations searched for the server binary when
SLIRCD_BIN is not usable, in source order. -/
def candidate_paths (root : String) : List String :=
  [root ++ "/target/debug/slircd-ng",
   root ++ "/target/release/slircd-ng",
   root ++ "/target/debug/slircd",
   root ++ "/target/release/slircd",
   "/home/straylight/target/debug/slircd-ng",
   "/home/straylight/target/release/slircd-ng",
   "/home/straylight/target/debug/slircd",
   "/home/straylight/target/release/slircd"]

/-- Binary resolution of run: take SLIRCD_BIN when truthy, otherwise
the first existing candidate; yield nothing when the result is falsy or
does not exist (run raises RuntimeError in that case). -/
def resolveSlircdBin (a : RunArgs) : Option String :=
  let bin0 : Option String :=
    if pyTruthy a.envSlircdBin then a.envSlircdBin
    else (candidate_paths a.workspaceRoot).find? a.pathExists
  match bin0 with
  | none => none
  | some s => if !(s == "") && a.pathExists s then some s else none

/-- The faketime wrapper of run: present exactly when the faketime
argument is truthy and the faketime executable is found on PATH. -/
def faketime_cmd (a : RunArgs) : List String :=
  match a.faketime with
  | some s => if !(s == "") && a.faketimeOnPath then ["faketime", "-f", s] else []
  | none => []

/-- The observable outcome of one run call: whether TLS material was
generated (gen_ssl is outside the provided sources and is modelled from
the spec as this flag), the configuration file path and contents
written, and either the spawned command line or the RuntimeError raised
before any process is spawned and before self.proc is assigned. -/
structure RunOutcome where
  sslMaterialGenerated : Bool
  configPath : String
  configContent : String
  spawn : Except String (List String)

/-- The run method of SlircdController over the embedded inputs. -/
def runSlircd (a : RunArgs) : RunOutcome :=
  ⟨a.ssl, config_path a, config_content a,
    match resolveSlircdBin a with
    | none => Except.error "slircd binary not found"
    | some bin => Except.ok (faketime_cmd a ++ [bin, config_path a])⟩

/-! a few evaluation checks -/

/-- A concrete TLS-enabled run. -/
def sslRunArgs : RunArgs :=
  ⟨"localhost", 6667, some "sesame", true, false, none, "/tmp/t1", "/tmp/t1/ssl.pem",
    "/tmp/t1/ssl.key", true, false, some "/bin/slircd", "/w",
    (fun s => s == "/bin/slircd"), false⟩

example : (runSlircd sslRunArgs).spawn = .ok ["/bin/slircd", "/tmp/t1/config.toml"] := rfl

example : tls_config sslRunArgs =
    "[tls]\naddress = \"localhost:6668\"\ncert_path = \"/tmp/t1/ssl.pem\"\nkey_path = \"/tmp/t1/ssl.key\"\n" := by
  decide

example : strContains "password = \"sesame\"" (serverSection (some "sesame")) := by decide

example : ¬ strContains "password" (serverSection none) := by decide

/-! helpers for C10 -/

/-- Appending a nonempty string yields a nonempty string. -/
theorem string_append_ne_empty (r l : String) (hl : l ≠ "") : r ++ l ≠ "" := by
  intro h
  apply hl
  have hd := congrArg String.data h
  rw [String.data_append] at hd
  have h2 : l.data = [] := (List.append_eq_nil.mp hd).2
  exact congrArg String.mk h2

/-- No candidate path is the empty string. -/
theorem candidate_ne_empty (root p : String) (hp : p ∈ candidate_paths root) : p ≠ "" := by
  simp only [candidate_paths, List.mem_cons, List.not_mem_nil, or_false] at hp
  rcases hp with rfl | rfl | rfl | rfl | rfl | rfl | rfl | rfl
  all_goals first
    | exact string_append_ne_empty _ _ (by decide)
    | decide

/-- Resolution under a truthy SLIRCD_BIN: the candidates are not
consulted. -/
theorem resolveSlircdBin_truthy (a : RunArgs) (s : String)
    (hs : a.envSlircdBin = some s) (hne : s ≠ "") :
    resolveSlircdBin a = if a.pathExists s then some s else none := by
  have hbeq : (s == "") = false := by simpa using hne
  simp only [resolveSlircdBin, hs, pyTruthy, hbeq, Bool.not_false, Bool.true_and,
    eq_self_iff_true, if_true]

/-- Resolution under a falsy SLIRCD_BIN is the first existing
candidate. -/
theorem resolveSlircdBin_falsy (a : RunArgs) (henv : pyTruthy a.envSlircdBin = false) :
    resolveSlircdBin a = (candidate_paths a.workspaceRoot).find? a.pathExists := by
  cases hf : (candidate_paths a.workspaceRoot).find? a.pathExists with
  | none => simp only [resolveSlircdBin, henv, Bool.false_eq_true, if_false, hf]
  | some p =>
      have hp : a.pathExists p = true := List.find?_some hf
      have hpmem : p ∈ candidate_paths a.workspaceRoot := List.mem_of_find?_eq_some hf
      have hpne : (p == "") = false := by simpa using candidate_ne_empty _ _ hpmem
      simp only [resolveSlircdBin, henv, Bool.false_eq_true, if_false, hf, hpne,
        Bool.not_false, hp, Bool.and_self, if_true]

/-- Resolution fails exactly when the variable is falsy and no candidate
exists, or the variable names a nonexistent path. -/
theorem resolveSlircdBin_eq_none_iff (a : RunArgs) :
    resolveSlircdBin a = none ↔
      (pyTruthy a.envSlircdBin = false ∧
        ∀ p ∈ candidate_paths a.workspaceRoot, a.pathExists p = false) ∨
      (∃ s, a.envSlircdBin = some s ∧ s ≠ "" ∧ a.pathExists s = false) := by
  by_cases he : pyTruthy a.envSlircdBin = true
  · obtain ⟨s, hs, hne⟩ : ∃ s, a.envSlircdBin = some s ∧ s ≠ "" := by
      cases henv : a.envSlircdBin with
      | none => rw [pyTruthy.eq_def, henv] at he; exact absurd he (by decide)
      | some s =>
          refine ⟨s, rfl, ?_⟩
          rw [pyTruthy.eq_def, henv] at he
          simpa using he
    rw [resolveSlircdBin_truthy a s hs hne]
    constructor
    · intro hnone
      by_cases hex : a.pathExists s = true
      · rw [if_pos hex] at hnone
        exact absurd hnone (by simp)
      · exact Or.inr ⟨s, hs, hne, by simpa using hex⟩
    · rintro (⟨hfalse, -⟩ | ⟨t, ht, -, htex⟩)
      · rw [he] at hfalse
        exact absurd hfalse (by decide)
      · obtain rfl : s = t := Option.some.inj (hs ▸ ht)
        rw [htex]
        simp
  · have he' : pyTruthy a.envSlircdBin = false := by simpa using he
    rw [resolveSlircdBin_falsy a he']
    cases hf : (candidate_paths a.workspaceRoot).find? a.pathExists with
    | none =>
        have hall : ∀ p ∈ candidate_paths a.workspaceRoot, a.pathExists p = false := by
          intro p hp
          simpa using List.find?_eq_none.mp hf p hp
        simp only [true_iff]
        exact Or.inl ⟨he', hall⟩
    | some p =>
        have hp : a.pathExists p = true := List.find?_some hf
        have hpmem : p ∈ candidate_paths a.workspaceRoot := List.mem_of_find?_eq_some hf
        constructor
        · intro h
          exact absurd h (by simp)
        · rintro (⟨-, hall⟩ | ⟨s, hs, hsne, -⟩)
          · rw [hall p hpmem] at hp
            exact absurd hp (by decide)
          · rw [pyTruthy.eq_def, hs] at he'
            have : (s == "") = true := by simpa using he'
            exact absurd (by simpa using this) hsne

/-! C10 -/

/-- Claim C10: run ends in the RuntimeError outcome, spawning nothing
and assigning no process, exactly when SLIRCD_BIN is unset (or empty,
which the code treats the same) and none of the candidate paths exists,
or when the resolved path does not exist; and conversely, when the
variable is unusable and some candidate exists, the first existing
candidate in the fixed search order is the spawned binary. -/
theorem run_raises_without_binary (a : RunArgs) :
    ((∃ e, (runSlircd a).spawn = Except.error e) ↔
      (pyTruthy a.envSlircdBin = false ∧
        ∀ p ∈ candidate_paths a.workspaceRoot, a.pathExists p = false) ∨
      (∃ s, a.envSlircdBin = some s ∧ s ≠ "" ∧ a.pathExists s = false)) ∧
    (pyTruthy a.envSlircdBin = false →
      ∀ p, (candidate_paths a.workspaceRoot).find? a.pathExists = some p →
        (runSlircd a).spawn = Except.ok (faketime_cmd a ++ [p, config_path a])) := by
  constructor
  · rw [← resolveSlircdBin_eq_none_iff]
    cases hres : resolveSlircdBin a with
    | none => simp [runSlircd, hres]
    | some bin => simp [runSlircd, hres]
  · intro henv p hfind
    rw [runSlircd.eq_def, resolveSlircdBin_falsy a henv, hfind]

/-- A concrete run whose binary comes from the candidate search. -/
def candidateArgs : RunArgs :=
  ⟨"localhost", 6667, none, false, false, none, "/tmp/t3", "p", "k", false, false, none,
    "/w", (fun s => s == "/home/straylight/target/debug/slircd"), false⟩

/-- Witness for C10: a concrete run resolving the seventh candidate. -/
theorem run_raises_without_binary_witness :
    (runSlircd candidateArgs).spawn =
      Except.ok (faketime_cmd candidateArgs ++
        ["/home/straylight/target/debug/slircd", config_path candidateArgs]) :=
  (run_raises_without_binary candidateArgs).2 rfl
    "/home/straylight/target/debug/slircd" (by decide)

/-! C4 -/

/-- A concrete run with a faketime offset but no faketime executable on
PATH. -/
def ftMissingArgs : RunArgs :=
  ⟨"localhost", 6667, none, false, false, some "+1y", "/tmp/t2", "p", "k", false, false,
    some "/bin/slircd", "/w", (fun s => s == "/bin/slircd"), false⟩

/-- Claim C4, counterexample: a run with a non-None faketime argument
whose faketime executable is absent from PATH spawns the child without
the clock-offset wrapper. -/
theorem faketime_not_always_applied :
    ftMissingArgs.faketime = some "+1y" ∧ ftMissingArgs.faketime ≠ none ∧
      (runSlircd ftMissingArgs).spawn = Except.ok ["/bin/slircd", "/tmp/t2/config.toml"] ∧
      faketime_cmd ftMissingArgs = [] :=
  ⟨rfl, by simp [ftMissingArgs], rfl, rfl⟩

/-- Claim C4, amended: the child command is prefixed with the faketime
wrapper exactly when the faketime argument is non-None and nonempty and
the faketime executable is found on PATH; otherwise the wrapper is
omitted; in either case the spawned command is the wrapper followed by
the binary and the configuration path. -/
theorem faketime_wrapper_condition (a : RunArgs) :
    (∀ s, a.faketime = some s → s ≠ "" → a.faketimeOnPath = true →
      faketime_cmd a = ["faketime", "-f", s]) ∧
    (a.faketime = none ∨ a.faketime = some "" ∨ a.faketimeOnPath = false →
      faketime_cmd a = []) ∧
    (∀ bin, resolveSlircdBin a = some bin →
      (runSlircd a).spawn = Except.ok (faketime_cmd a ++ [bin, config_path a])) := by
  refine ⟨?_, ?_, ?_⟩
  · intro s hs hne hp
    have hbeq : (s == "") = false := by simpa using hne
    simp [faketime_cmd, hs, hbeq, hp]
  · rintro (h | h | h)
    · simp [faketime_cmd, h]
    · simp [faketime_cmd, h]
    · cases hft : a.faketime with
      | none => simp [faketime_cmd, hft]
      | some s => simp [faketime_cmd, hft, h]
  · intro bin hb
    rw [runSlircd.eq_def, hb]

/-- A concrete run with a usable faketime offset. -/
def ftOkArgs : RunArgs :=
  ⟨"localhost", 6667, none, false, false, some "+1y", "/tmp/t2", "p", "k", false, false,
    some "/bin/slircd", "/w", (fun s => s == "/bin/slircd"), true⟩

/-- Witness for the amended C4 at a concrete run. -/
theorem faketime_wrapper_condition_witness :
    faketime_cmd ftOkArgs = ["faketime", "-f", "+1y"] ∧
      (runSlircd ftOkArgs).spawn =
        Except.ok (faketime_cmd ftOkArgs ++ ["/bin/slircd", config_path ftOkArgs]) :=
  ⟨(faketime_wrapper_condition ftOkArgs).1 "+1y" rfl (by decide) rfl,
    (faketime_wrapper_condition ftOkArgs).2.2 "/bin/slircd" rfl⟩

/-! C6 -/

/-- Claim C6: whenever a binary is resolved, the spawned command line is
exactly the binary followed by the generated configuration path as its
single argument, optionally preceded by the faketime wrapper; nothing
else is passed. -/
theorem spawn_command_shape (a : RunArgs) (bin : String)
    (h : resolveSlircdBin a = some bin) :
    ∃ pre, (runSlircd a).spawn = Except.ok (pre ++ [bin, config_path a]) ∧
      (pre = [] ∨ ∃ s, a.faketime = some s ∧ s ≠ "" ∧ a.faketimeOnPath = true ∧
        pre = ["faketime", "-f", s]) := by
  refine ⟨faketime_cmd a, by rw [runSlircd.eq_def, h], ?_⟩
  cases hft : a.faketime with
  | none => exact Or.inl (by simp [faketime_cmd, hft])
  | some s =>
      by_cases hcond : (!(s == "") && a.faketimeOnPath) = true
      · obtain ⟨h1, h2⟩ := (Bool.and_eq_true _ _).mp hcond
        exact Or.inr ⟨s, rfl, by simpa using h1, h2, by simp [faketime_cmd, hft, hcond]⟩
      · refine Or.inl ?_
        rw [faketime_cmd.eq_def, hft]
        show (if (!(s == "") && a.faketimeOnPath) = true then ["faketime", "-f", s] else [])
          = []
        rw [if_neg hcond]

/-- Witness for C6 at a concrete run. -/
theorem spawn_command_shape_witness :
    ∃ pre, (runSlircd ftOkArgs).spawn =
        Except.ok (pre ++ ["/bin/slircd", config_path ftOkArgs]) ∧
      (pre = [] ∨ ∃ s, ftOkArgs.faketime = some s ∧ s ≠ "" ∧ ftOkArgs.faketimeOnPath = true ∧
        pre = ["faketime", "-f", s]) :=
  spawn_command_shape ftOkArgs "/bin/slircd" rfl

/-! C3 -/

/-- The TLS listener address differs from the plaintext one. -/
theorem tlsAddress_ne_bindAddress (a : RunArgs) : tlsAddress a ≠ bindAddress a := by
  intro h
  rw [tlsAddress, bindAddress] at h
  have hd := congrArg String.data h
  rw [String.data_append, String.data_append, String.data_append, String.data_append] at hd
  have h2 := List.append_cancel_left hd
  have h3 : natToDecimal (a.port + 1) = natToDecimal a.port := congrArg String.mk h2
  have := natToDecimal_injective _ _ h3
  omega

/-- Claim C3: a run with ssl generates the per-test TLS material and
emits a [tls] section declaring a listener at the hostname with the
port one above the plaintext port, referencing the generated
certificate and key paths, and that address differs from the plaintext
listen address; a run without ssl emits no [tls] section and configures
only the plaintext listener. -/
theorem run_tls_sections (a : RunArgs) :
    (a.ssl = true →
      (runSlircd a).sslMaterialGenerated = true ∧
      tls_config a = "[tls]\naddress = \"" ++ tlsAddress a ++ "\"\ncert_path = \""
        ++ a.pemPath ++ "\"\nkey_path = \"" ++ a.keyPath ++ "\"\n" ∧
      strContains (tls_config a) ((runSlircd a).configContent) ∧
      tlsAddress a = a.hostname ++ ":" ++ natToDecimal (a.port + 1) ∧
      bindAddress a = a.hostname ++ ":" ++ natToDecimal a.port ∧
      tlsAddress a ≠ bindAddress a) ∧
    (a.ssl = false →
      tls_config a = "" ∧
      strContains ("[listen]\naddress = \"" ++ bindAddress a ++ "\"")
        ((runSlircd a).configContent)) := by
  constructor
  · intro hssl
    refine ⟨by simp [runSlircd, hssl], by rw [tls_config, if_pos hssl], ?_, rfl, rfl,
      tlsAddress_ne_bindAddress a⟩
    show strContains (tls_config a) (config_content a)
    refine strContains_of_parts _
      (serverSection a.password ++ "\n\n[listen]\naddress = \"" ++ bindAddress a ++ "\"\n\n")
      (configTail ++ account_registration_section a.regBeforeConnect a.regEmailRequired)
      _ ?_
    simp only [config_content, String.append_assoc]
  · intro hssl
    refine ⟨by rw [tls_config, if_neg (by simp [hssl])], ?_⟩
    show strContains _ (config_content a)
    have e1 : ("\n\n[listen]\naddress = \"" : String) = "\n\n" ++ "[listen]\naddress = \"" := rfl
    have e2 : ("\"\n\n" : String) = "\"" ++ "\n\n" := rfl
    refine strContains_of_parts _
      (serverSection a.password ++ "\n\n")
      ("\n\n" ++ tls_config a ++ configTail
        ++ account_registration_section a.regBeforeConnect a.regEmailRequired)
      _ ?_
    rw [config_content, e1, e2]
    simp only [String.append_assoc]

/-- A concrete run without TLS. -/
def nonSslRunArgs : RunArgs :=
  ⟨"localhost", 6698, none, false, false, none, "/tmp/t4", "p", "k", false, true,
    some "/bin/slircd", "/w", (fun s => s == "/bin/slircd"), false⟩

/-- Witness for C3 at a TLS run and a plaintext run. -/
theorem run_tls_sections_witness :
    strContains (tls_config sslRunArgs) ((runSlircd sslRunArgs).configContent) ∧
      tlsAddress sslRunArgs ≠ bindAddress sslRunArgs ∧
      tls_config nonSslRunArgs = "" ∧
      strContains ("[listen]\naddress = \"" ++ bindAddress nonSslRunArgs ++ "\"")
        ((runSlircd nonSslRunArgs).configContent) :=
  ⟨((run_tls_sections sslRunArgs).1 rfl).2.2.1,
    ((run_tls_sections sslRunArgs).1 rfl).2.2.2.2.2,
    ((run_tls_sections nonSslRunArgs).2 rfl).1,
    ((run_tls_sections nonSslRunArgs).2 rfl).2⟩

/-! C5 -/

/-- Claim C5: every run writes the full configuration at config.toml
inside its own per-test directory (distinct directories give distinct
paths); the part of the file before the [listen] header carries a
password entry with the given password exactly when one was passed, and
carries none otherwise; and the file always contains an
account_registration section with enabled set and with before_connect
and email_required equal to the test-config flags. -/
theorem run_config_isolation (a : RunArgs) :
    (runSlircd a).configPath = a.directory ++ "/config.toml" ∧
    (∀ b : RunArgs, (runSlircd b).configPath = (runSlircd a).configPath →
      b.directory = a.directory) ∧
    (∀ pw, a.password = some pw →
      strContains ("password = \"" ++ pw ++ "\"") (serverSection a.password)) ∧
    ¬ strContains "password" (serverSection none) ∧
    (∃ rest, (runSlircd a).configContent = serverSection a.password ++ "\n\n[listen]" ++ rest) ∧
    strContains ("[account_registration]\nenabled = true\nbefore_connect = "
        ++ pyBool a.regBeforeConnect ++ "\nemail_required = " ++ pyBool a.regEmailRequired)
      ((runSlircd a).configContent) := by
  refine ⟨rfl, ?_, ?_, by decide, ?_, ?_⟩
  · intro b h
    have hd := congrArg String.data h
    simp only [runSlircd, config_path, String.data_append] at hd
    exact congrArg String.mk (List.append_cancel_right hd)
  · intro pw hpw
    rw [hpw]
    refine strContains_of_parts _ configHead "" _ ?_
    rw [String.append_empty]
    rfl
  · refine ⟨"\naddress = \"" ++ bindAddress a ++ "\"\n\n" ++ tls_config a ++ configTail
      ++ account_registration_section a.regBeforeConnect a.regEmailRequired, ?_⟩
    show config_content a = _
    have e1 : ("\n\n[listen]\naddress = \"" : String) = "\n\n[listen]" ++ "\naddress = \"" := rfl
    rw [config_content, e1]
    simp only [String.append_assoc]
  · show strContains _ (config_content a)
    have e3 : ("\n[account_registration]\nenabled = true\nbefore_connect = " : String)
      = "\n" ++ "[account_registration]\nenabled = true\nbefore_connect = " := rfl
    refine strContains_of_parts _
      (serverSection a.password ++ "\n\n[listen]\naddress = \"" ++ bindAddress a ++ "\"\n\n"
        ++ tls_config a ++ configTail ++ "\n")
      "\ncustom_account_name = true\n" _ ?_
    rw [config_content, account_registration_section, e3]
    simp only [String.append_assoc]

/-- Witness for C5 at a concrete run. -/
theorem run_config_isolation_witness :
    strContains ("password = \"" ++ "sesame" ++ "\"") (serverSection sslRunArgs.password) ∧
      (runSlircd sslRunArgs).configPath = "/tmp/t1" ++ "/config.toml" ∧
      strContains ("[account_registration]\nenabled = true\nbefore_connect = "
          ++ pyBool sslRunArgs.regBeforeConnect ++ "\nemail_required = "
          ++ pyBool sslRunArgs.regEmailRequired)
        ((runSlircd sslRunArgs).configContent) :=
  ⟨(run_config_isolation sslRunArgs).2.2.1 "sesame" rfl,
    (run_config_isolation sslRunArgs).1,
    (run_config_isolation sslRunArgs).2.2.2.2.2⟩


end Irctest
